import Mathlib

/-!
Shallow embedding of the choropleth color-mapping engine of the global-GDP
dashboard (authoritative sources: `src/components/Globe3D.tsx` (second,
current revision in the file), `src/unnamed/part_002` (the App module with
`generateHistory`, the synthetic data generator and rank assignment inside
`initData`), and `src/services/geminiService.ts`).

JavaScript numbers are modelled as exact rationals (`ℚ`); every numeric
computation the claims exercise is far from any binary-float rounding
boundary, so the rational model agrees with the IEEE-754 evaluation.
`Math.round` is JavaScript's round-half-toward-positive-infinity,
`⌊q + 1/2⌋`.  The JS value `NaN` (reachable in `getColor`'s guard) is
modelled explicitly by the `JsNumber` type.  Colors are carried as the
literal strings the source uses; `hexToRgb` reimplements the regex parse
`^#?([a-f\d]{2})([a-f\d]{2})([a-f\d]{2})$/i` with its fall-back to black.
-/

/-- JavaScript `Math.round`: round half toward +∞. -/
def jsRound (q : ℚ) : ℤ := ⌊q + 1/2⌋

/-- An RGB triple as produced by `hexToRgb` in `Globe3D.tsx`. -/
structure Rgb where
  r : ℤ
  g : ℤ
  b : ℤ
deriving DecidableEq, Repr

/-- Value of one hex digit, matching the character class `[a-f\d]` under the
`i` flag of the regex in `hexToRgb`. -/
def hexDigitVal (c : Char) : Option ℕ :=
  if '0' ≤ c ∧ c ≤ '9' then some (c.toNat - '0'.toNat)
  else if 'a' ≤ c ∧ c ≤ 'f' then some (c.toNat - 'a'.toNat + 10)
  else if 'A' ≤ c ∧ c ≤ 'F' then some (c.toNat - 'A'.toNat + 10)
  else none

/-- Embeds `parseInt(xx, 16)` on a two-hex-digit group. -/
def parseHexPair (c1 c2 : Char) : Option ℕ := do
  let h ← hexDigitVal c1
  let l ← hexDigitVal c2
  pure (16 * h + l)

/-- The optional leading `#` of the regex `^#?…`. -/
def stripHash : List Char → List Char
  | '#' :: cs => cs
  | cs => cs

/-- Function `hexToRgb` from `Globe3D.tsx`: parse `#rrggbb` (hash optional,
case-insensitive); any string not matching the anchored regex falls back to
black `(0,0,0)`. -/
def hexToRgb (s : String) : Rgb :=
  match stripHash s.data with
  | [a, b, c, d, e, f] =>
    match parseHexPair a b, parseHexPair c d, parseHexPair e f with
    | some r, some g, some bl => ⟨r, g, bl⟩
    | _, _, _ => ⟨0, 0, 0⟩
  | _ => ⟨0, 0, 0⟩

/-- A gradient color stop `{ pos, color }` as passed to `getGradientColor`. -/
structure ColorStop where
  pos : ℚ
  color : String
deriving DecidableEq, Repr

/-- The value returned by the color functions of `Globe3D.tsx`: either a raw
color string returned verbatim (the endpoint branches return the stop's
`color` string, other branches return fixed `rgba(…)`/hex literals), or an
interpolated ``rgba(r,g,b,0.95)`` built from three rounded channels. -/
inductive GColor where
  | raw (s : String)
  | rgba (r g b : ℤ)
deriving DecidableEq, Repr

/-- The RGB content of a returned color: raw strings are read through
`hexToRgb` (the parse the source itself applies to stop colors), and
interpolated results carry their channels directly. -/
def rgbOf : GColor → Rgb
  | .raw s => hexToRgb s
  | .rgba r g b => ⟨r, g, b⟩

/-- The bracket-search loop of `getGradientColor`: the first adjacent pair
`(sortedStops[i], sortedStops[i+1])` with
`value >= sortedStops[i].pos && value <= sortedStops[i+1].pos`. -/
def findPair (value : ℚ) : List ColorStop → Option (ColorStop × ColorStop)
  | a :: b :: rest =>
    if a.pos ≤ value ∧ value ≤ b.pos then some (a, b)
    else findPair value (b :: rest)
  | _ => none

/-- Values `startStop`/`endStop` of `getGradientColor`: the pair found by the loop,
defaulting to `(sortedStops[0], sortedStops[1])` when the loop never hits its
`break` (the loop initialisers in the source). -/
def bracketOf (value : ℚ) : List ColorStop → ColorStop × ColorStop
  | s0 :: rest => (findPair value (s0 :: rest)).getD (s0, rest.headD s0)
  | [] => (⟨0, ""⟩, ⟨0, ""⟩)

/-- One channel of the linear interpolation:
`Math.round(c1 + relativeValue * (c2 - c1))`. -/
def interpChannel (c1 c2 : ℤ) (rel : ℚ) : ℤ :=
  jsRound ((c1 : ℚ) + rel * ((c2 : ℚ) - (c1 : ℚ)))

/-- The interpolation tail of `getGradientColor`:
`relativeValue = (value - startStop.pos) / (endStop.pos - startStop.pos)`
followed by per-channel rounding into an `rgba(…,0.95)` string. -/
def interpolateAt (value : ℚ) (pr : ColorStop × ColorStop) : GColor :=
  let c1 := hexToRgb pr.1.color
  let c2 := hexToRgb pr.2.color
  let rel := (value - pr.1.pos) / (pr.2.pos - pr.1.pos)
  .rgba (interpChannel c1.r c2.r rel) (interpChannel c1.g c2.g rel)
    (interpChannel c1.b c2.b rel)

/-- Body of `getGradientColor` after its initial sort (from the `if value <=`
check on).  The empty-list arm is junk: the source would throw there, and no
caller reaches it (every claim supplies at least two stops). -/
def gradientAtSorted (value : ℚ) : List ColorStop → GColor
  | [] => .raw ""
  | s0 :: rest =>
    if value ≤ s0.pos then .raw s0.color
    else if ((s0 :: rest).getLast (List.cons_ne_nil s0 rest)).pos ≤ value then
      .raw ((s0 :: rest).getLast (List.cons_ne_nil s0 rest)).color
    else interpolateAt value (bracketOf value (s0 :: rest))

/-- The order `a.pos - b.pos <= 0` induced by the comparator of
`[...stops].sort((a, b) => a.pos - b.pos)`. -/
def stopLE (u v : ColorStop) : Prop := u.pos ≤ v.pos

instance : DecidableRel stopLE := fun u v => inferInstanceAs (Decidable (u.pos ≤ v.pos))

instance : IsTotal ColorStop stopLE := ⟨fun a b => le_total a.pos b.pos⟩

instance : IsTrans ColorStop stopLE := ⟨fun _ _ _ h1 h2 => le_trans h1 h2⟩

/-- Embeds `[...stops].sort((a, b) => a.pos - b.pos)`: a stable sort of a fresh copy
of the stops by position.  ECMAScript `Array.prototype.sort` is stable, and a
stable sort by a total preorder is extensionally unique, so the stable
`List.insertionSort` (which inserts each element before the ties that
followed it in the input) computes the same list. -/
def jsSortStops (stops : List ColorStop) : List ColorStop :=
  List.insertionSort stopLE stops

/-- Function `getGradientColor` from `Globe3D.tsx` (lines 261–292). -/
def getGradientColor (value : ℚ) (stops : List ColorStop) : GColor :=
  gradientAtSorted value (jsSortStops stops)

/-- Enumeration `VisualizationMode` from `types.ts`. -/
inductive VisualizationMode where
  | POPULATION
  | GDP_PER_CAPITA
  | POP_GROWTH
  | GDP_GROWTH
deriving DecidableEq, Repr

/-- The four current-value fields of `EconomicStats` from `types.ts` (the
fields `getVal` reads). -/
structure EconomicStats where
  population : ℚ
  gdpPerCapita : ℚ
  popGrowth : ℚ
  gdpGrowth : ℚ
deriving DecidableEq, Repr

/-- A JavaScript number, including `NaN` (the value `getColor`'s no-data
guard `!val && val !== 0` is designed to catch). -/
inductive JsNumber where
  | num (q : ℚ)
  | nan
deriving DecidableEq, Repr

/-- Function `getVal` from `Globe3D.tsx` (lines 389–401): a feature whose name has no
stats record yields `0` (the `if (!stats) return 0` branch); otherwise the
mode's stat field. -/
def getVal (mode : VisualizationMode) (stats : Option EconomicStats) : JsNumber :=
  match stats with
  | none => .num 0
  | some s =>
    match mode with
    | .POPULATION => .num s.population
    | .GDP_PER_CAPITA => .num s.gdpPerCapita
    | .POP_GROWTH => .num s.popGrowth
    | .GDP_GROWTH => .num s.gdpGrowth

/-- The population gradient stops of `getColor` (indigo→violet→pink→yellow). -/
def popStops : List ColorStop :=
  [⟨0, "#312e81"⟩, ⟨3/10, "#7c3aed"⟩, ⟨6/10, "#db2777"⟩, ⟨1, "#facc15"⟩]

/-- The GDP-per-capita gradient stops of `getColor`. -/
def gdpStops : List ColorStop :=
  [⟨0, "#022c22"⟩, ⟨3/10, "#0d9488"⟩, ⟨7/10, "#22d3ee"⟩, ⟨1, "#e0f2fe"⟩]

/-- The shared growth gradient stops of `getColor` (red→slate→green). -/
def growthStops : List ColorStop :=
  [⟨0, "#ef4444"⟩, ⟨4/10, "#475569"⟩, ⟨1, "#10b981"⟩]

/-- The fixed "no data" fill of `getColor`: `'rgba(30, 41, 59, 0.8)'`
(commented `// Slate 800 for no data` in the source). -/
def noDataColor : GColor := .raw "rgba(30, 41, 59, 0.8)"

/-- Function `getColor` from `Globe3D.tsx` (lines 403–435).  The JS guard
`!val && val !== 0` holds for a number exactly when it is `NaN` (a zero is
excluded by the second conjunct), which the `JsNumber.nan` arm captures. -/
def getColor (mode : VisualizationMode) (val : JsNumber) : GColor :=
  match val with
  | .nan => noDataColor
  | .num v =>
    match mode with
    | .POPULATION => getGradientColor (min (v / 100000000) 1) popStops
    | .GDP_PER_CAPITA => getGradientColor (min (v / 65000) 1) gdpStops
    | .POP_GROWTH => getGradientColor (min (max ((v + 2) / 8) 0) 1) growthStops
    | .GDP_GROWTH => getGradientColor (min (max ((v + 2) / 8) 0) 1) growthStops

/-- The strict version of `stopLE`. -/
def stopLT (u v : ColorStop) : Prop := u.pos < v.pos

instance : DecidableRel stopLT := fun u v => inferInstanceAs (Decidable (u.pos < v.pos))

instance : IsAntisymm ColorStop stopLT := ⟨fun _ _ h1 h2 => absurd h2 (lt_asymm h1)⟩

lemma hexToRgb_312e81 : hexToRgb "#312e81" = ⟨49, 46, 129⟩ := by decide

lemma hexToRgb_7c3aed : hexToRgb "#7c3aed" = ⟨124, 58, 237⟩ := by decide

lemma hexToRgb_db2777 : hexToRgb "#db2777" = ⟨219, 39, 119⟩ := by decide

lemma hexToRgb_facc15 : hexToRgb "#facc15" = ⟨250, 204, 21⟩ := by decide

lemma hexToRgb_ef4444 : hexToRgb "#ef4444" = ⟨239, 68, 68⟩ := by decide

lemma hexToRgb_475569 : hexToRgb "#475569" = ⟨71, 85, 105⟩ := by decide

lemma hexToRgb_10b981 : hexToRgb "#10b981" = ⟨16, 185, 129⟩ := by decide

lemma jsSortStops_sorted (stops : List ColorStop) : (jsSortStops stops).Sorted stopLE :=
  List.sorted_insertionSort stopLE stops

lemma jsSortStops_perm (stops : List ColorStop) : (jsSortStops stops).Perm stops :=
  List.perm_insertionSort stopLE stops

lemma jsSortStops_of_sorted {stops : List ColorStop} (h : stops.Sorted stopLE) :
    jsSortStops stops = stops :=
  h.insertionSort_eq

/-- The bracket-search loop always finds a pair once the endpoint branches
are passed: if the head is strictly below `value` and the last stop is at or
above it, the first pair found satisfies `p.pos < value ≤ q.pos` — so the
pair's range is strictly positive and the division that follows is by a
nonzero number.  (No sortedness is needed.) -/
lemma findPair_cons₂ (value : ℚ) (a b : ColorStop) (rest : List ColorStop) :
    findPair value (a :: b :: rest) =
      if a.pos ≤ value ∧ value ≤ b.pos then some (a, b) else findPair value (b :: rest) := rfl

lemma findPair_found (value : ℚ) :
    ∀ (a : ColorStop) (l : List ColorStop), l ≠ [] → a.pos < value →
      value ≤ ((a :: l).getLast (List.cons_ne_nil a l)).pos →
      ∃ p q, findPair value (a :: l) = some (p, q) ∧ p.pos < value ∧ value ≤ q.pos := by
  intro a l
  induction l generalizing a with
  | nil => intro h; exact absurd rfl h
  | cons b t ih =>
    intro _ ha hlast
    by_cases hb : value ≤ b.pos
    · exact ⟨a, b, by rw [findPair_cons₂, if_pos ⟨le_of_lt ha, hb⟩], ha, hb⟩
    · push_neg at hb
      cases t with
      | nil => exact absurd hlast (not_le.mpr hb)
      | cons c u =>
        have hlast' : value ≤ ((b :: c :: u).getLast (List.cons_ne_nil b (c :: u))).pos :=
          hlast
        obtain ⟨p, q, hfp, hp, hq⟩ := ih b (List.cons_ne_nil c u) hb hlast'
        refine ⟨p, q, ?_, hp, hq⟩
        rw [findPair_cons₂, if_neg (by simp [not_le.mpr hb])]
        exact hfp


lemma jsRound_intCast (n : ℤ) : jsRound (n : ℚ) = n := by
  unfold jsRound
  rw [Int.floor_eq_iff]
  constructor <;> [push_cast; push_cast] <;> linarith

lemma interpChannel_one (c1 c2 : ℤ) : interpChannel c1 c2 1 = c2 := by
  unfold interpChannel
  have h : (c1 : ℚ) + 1 * ((c2 : ℚ) - (c1 : ℚ)) = (c2 : ℚ) := by ring
  rw [h, jsRound_intCast]

lemma gradientAtSorted_cons (value : ℚ) (s0 : ColorStop) (rest : List ColorStop) :
    gradientAtSorted value (s0 :: rest) =
      if value ≤ s0.pos then .raw s0.color
      else if ((s0 :: rest).getLast (List.cons_ne_nil s0 rest)).pos ≤ value then
        .raw ((s0 :: rest).getLast (List.cons_ne_nil s0 rest)).color
      else interpolateAt value (bracketOf value (s0 :: rest)) := rfl

lemma bracketOf_cons (value : ℚ) (s0 : ColorStop) (rest : List ColorStop) :
    bracketOf value (s0 :: rest) = (findPair value (s0 :: rest)).getD (s0, rest.headD s0) := rfl

/-- At the exact position of the stop `s`, the interpolation between the
preceding stop `a` and `s` yields exactly the channels of `s`'s color
(`relativeValue` is exactly 1 because the range is nonzero). -/
lemma interpolateAt_right_end (a s : ColorStop) (h : a.pos < s.pos) :
    interpolateAt s.pos (a, s) =
      .rgba (hexToRgb s.color).r (hexToRgb s.color).g (hexToRgb s.color).b := by
  unfold interpolateAt
  have hr : (s.pos - a.pos) / (s.pos - a.pos) = 1 := div_self (by linarith)
  simp only [hr, interpChannel_one]

/-- In a strictly position-sorted decomposition `m ++ a :: s :: suf`, the
head of the list sits strictly below `s`. -/
lemma head_pos_lt_of_pairwise (m : List ColorStop) (a s : ColorStop) (suf : List ColorStop)
    (h : (m ++ a :: s :: suf).Pairwise stopLT) :
    ((m ++ a :: s :: suf).head (by simp)).pos < s.pos := by
  cases m with
  | nil =>
    simp only [List.nil_append, List.head_cons]
    exact (List.pairwise_cons.mp h).1 s (by simp)
  | cons x m' =>
    simp only [List.cons_append, List.head_cons]
    exact (List.pairwise_cons.mp h).1 s (by simp)

/-- With strictly sorted stops, querying the bracket loop at an interior
stop's exact position finds the pair formed by that stop and its
predecessor: every earlier pair fails the `value <= stops[i+1].pos` test. -/
lemma findPair_at_stop (s : ColorStop) :
    ∀ (pre : List ColorStop) (a : ColorStop) (suf : List ColorStop),
      (pre ++ a :: s :: suf).Pairwise stopLT →
      findPair s.pos (pre ++ a :: s :: suf) = some (a, s) := by
  intro pre
  induction pre with
  | nil =>
    intro a suf h
    have ha : a.pos < s.pos := (List.pairwise_cons.mp h).1 s (by simp)
    simp only [List.nil_append]
    rw [findPair_cons₂, if_pos ⟨le_of_lt ha, le_refl _⟩]
  | cons x pre' ih =>
    intro a suf h
    have h' : (pre' ++ a :: s :: suf).Pairwise stopLT := (List.pairwise_cons.mp h).2
    have hy := head_pos_lt_of_pairwise pre' a s suf h'
    cases hd : pre' ++ a :: s :: suf with
    | nil => exact absurd hd (by simp)
    | cons y tail =>
      have hy' : y.pos < s.pos := by simp only [hd, List.head_cons] at hy; exact hy
      have hstep : findPair s.pos ((x :: pre') ++ a :: s :: suf) =
          findPair s.pos (pre' ++ a :: s :: suf) := by
        simp only [List.cons_append, hd]
        rw [findPair_cons₂, if_neg (fun hc => absurd hc.2 (not_le.mpr hy'))]
      rw [hstep, ih a suf h']

lemma getLast_list_congr {α : Type} {l l' : List α} (h : l = l') (hl : l ≠ []) :
    l.getLast hl = l'.getLast (h ▸ hl) := by subst h; rfl

/-- C1: for every list of at least 2 color stops sorted (strictly)
ascending by position with first position ≤ 0 and last position ≥ 1, and
every value: `getGradientColor` returns the first stop's color when
`value ≤` the first position, the last stop's color when `value ≥` the last
position, and at an interior stop's exact position it returns exactly that
stop's color (as an `rgba` whose channels are the stop's parsed RGB
channels, since `relativeValue` is exactly 1 there). -/
theorem C1_gradient_endpoint_and_interior_stop_colors
    (s0 : ColorStop) (rest : List ColorStop) (hne : rest ≠ [])
    (hsort : (s0 :: rest).Pairwise stopLT)
    (hfirst : s0.pos ≤ 0)
    (hlast : 1 ≤ ((s0 :: rest).getLast (List.cons_ne_nil s0 rest)).pos)
    (value : ℚ) :
    (value ≤ s0.pos → getGradientColor value (s0 :: rest) = .raw s0.color) ∧
    (((s0 :: rest).getLast (List.cons_ne_nil s0 rest)).pos ≤ value →
      getGradientColor value (s0 :: rest) =
        .raw ((s0 :: rest).getLast (List.cons_ne_nil s0 rest)).color) ∧
    (∀ pre a s suf, s0 :: rest = pre ++ a :: s :: suf → suf ≠ [] → value = s.pos →
      rgbOf (getGradientColor value (s0 :: rest)) = hexToRgb s.color) := by
  have hsorted : (s0 :: rest).Sorted stopLE := hsort.imp (fun h => le_of_lt h)
  have hid : jsSortStops (s0 :: rest) = s0 :: rest := jsSortStops_of_sorted hsorted
  have hgg : getGradientColor value (s0 :: rest) = gradientAtSorted value (s0 :: rest) := by
    rw [getGradientColor, hid]
  refine ⟨?_, ?_, ?_⟩
  · intro h
    rw [hgg, gradientAtSorted_cons, if_pos h]
  · intro h
    have h0 : s0.pos < value := by linarith
    rw [hgg, gradientAtSorted_cons, if_neg (not_le.mpr h0), if_pos h]
  · intro pre a s suf heq hsuf hval
    have hs_mem : s ∈ rest := by
      cases pre with
      | nil =>
        simp only [List.nil_append] at heq
        injection heq with h1 h2
        rw [h2]; simp
      | cons x pre' =>
        simp only [List.cons_append] at heq
        injection heq with h1 h2
        rw [h2]; simp
    have h0 : s0.pos < s.pos := (List.pairwise_cons.mp hsort).1 s hs_mem
    have hsort' : (pre ++ a :: s :: suf).Pairwise stopLT := heq ▸ hsort
    have hsub : (a :: s :: suf).Pairwise stopLT :=
      hsort'.sublist (List.sublist_append_right pre (a :: s :: suf))
    have has : a.pos < s.pos := (List.pairwise_cons.mp hsub).1 s (by simp)
    have hsz : (s :: suf).Pairwise stopLT := (List.pairwise_cons.mp hsub).2
    have hsl : s.pos < (suf.getLast hsuf).pos :=
      (List.pairwise_cons.mp hsz).1 _ (List.getLast_mem hsuf)
    have hx : (s0 :: rest).getLast (List.cons_ne_nil s0 rest) = suf.getLast hsuf := by
      rw [getLast_list_congr heq (List.cons_ne_nil s0 rest),
        List.getLast_append_of_ne_nil (List.cons_ne_nil a (s :: suf)),
        getLast_list_congr (show a :: s :: suf = [a, s] ++ suf from rfl)
          (List.cons_ne_nil a (s :: suf)),
        List.getLast_append_of_ne_nil hsuf]
    have hlt : value < ((s0 :: rest).getLast (List.cons_ne_nil s0 rest)).pos := by
      rw [hx, hval]; exact hsl
    have hv0 : s0.pos < value := by rw [hval]; exact h0
    have hfp : findPair value (s0 :: rest) = some (a, s) := by
      rw [hval, heq]; exact findPair_at_stop s pre a suf hsort'
    rw [hgg, gradientAtSorted_cons, if_neg (not_le.mpr hv0), if_neg (not_le.mpr hlt),
      bracketOf_cons, hfp]
    rw [Option.getD_some, hval, interpolateAt_right_end a s has]
    rfl

/-- C1 (witness): the three branches exercised on the concrete
population gradient. -/
theorem C1_witness :
    getGradientColor (-1) popStops = .raw "#312e81" ∧
    getGradientColor 2 popStops = .raw "#facc15" ∧
    rgbOf (getGradientColor (3/10) popStops) = hexToRgb "#7c3aed" := by
  have hsort : popStops.Pairwise stopLT := by
    norm_num [popStops, stopLT, List.pairwise_cons]
  refine ⟨?_, ?_, ?_⟩
  · exact (C1_gradient_endpoint_and_interior_stop_colors ⟨0, "#312e81"⟩
      [⟨3/10, "#7c3aed"⟩, ⟨6/10, "#db2777"⟩, ⟨1, "#facc15"⟩]
      (by simp) hsort (le_refl 0) (le_refl 1) (-1)).1 (by norm_num)
  · exact (C1_gradient_endpoint_and_interior_stop_colors ⟨0, "#312e81"⟩
      [⟨3/10, "#7c3aed"⟩, ⟨6/10, "#db2777"⟩, ⟨1, "#facc15"⟩]
      (by simp) hsort (le_refl 0) (le_refl 1) 2).2.1 (by norm_num)
  · exact (C1_gradient_endpoint_and_interior_stop_colors ⟨0, "#312e81"⟩
      [⟨3/10, "#7c3aed"⟩, ⟨6/10, "#db2777"⟩, ⟨1, "#facc15"⟩]
      (by simp) hsort (le_refl 0) (le_refl 1) (3/10)).2.2
      [] ⟨0, "#312e81"⟩ ⟨3/10, "#7c3aed"⟩ [⟨6/10, "#db2777"⟩, ⟨1, "#facc15"⟩]
      rfl (by simp) rfl

/-- C2: with a (weakly) sorted stop list containing two adjacent stops at
the same position and a value strictly between the first and last positions,
the bracket the loop selects always has strictly positive range — the
division computing `relativeValue` is never a division by zero — and the
returned color is an `rgba` of well-defined integer channels.  (The guard is
not a dedicated zero-range test: the early-return for `value <= stops[0].pos`
plus the first-match loop make a zero-range bracket unreachable.) -/
theorem C2_coincident_stops_no_zero_division
    (s0 : ColorStop) (rest : List ColorStop)
    (hsort : (s0 :: rest).Sorted stopLE)
    (hadj : ∃ pre a b suf, s0 :: rest = pre ++ a :: b :: suf ∧ a.pos = b.pos)
    (value : ℚ)
    (h0 : s0.pos < value)
    (h1 : value < ((s0 :: rest).getLast (List.cons_ne_nil s0 rest)).pos) :
    (bracketOf value (s0 :: rest)).1.pos < (bracketOf value (s0 :: rest)).2.pos ∧
    ∃ r g b : ℤ, getGradientColor value (s0 :: rest) = .rgba r g b := by
  have hne : rest ≠ [] := by
    rintro rfl
    simp only [List.getLast_singleton] at h1
    exact absurd h1 (not_lt.mpr (le_of_lt h0))
  obtain ⟨p, q, hfp, hp, hq⟩ := findPair_found value s0 rest hne h0 (le_of_lt h1)
  have hbr : bracketOf value (s0 :: rest) = (p, q) := by
    rw [bracketOf_cons, hfp, Option.getD_some]
  constructor
  · rw [hbr]; exact lt_of_lt_of_le hp hq
  · have hid : jsSortStops (s0 :: rest) = s0 :: rest := jsSortStops_of_sorted hsort
    have hval : getGradientColor value (s0 :: rest) =
        interpolateAt value (bracketOf value (s0 :: rest)) := by
      rw [getGradientColor, hid, gradientAtSorted_cons, if_neg (not_le.mpr h0),
        if_neg (not_le.mpr h1)]
    rw [hval, hbr]
    exact ⟨_, _, _, rfl⟩

/-- C2 (witness): a gradient with two coincident stops at position 1/2,
queried exactly at the coincident position. -/
theorem C2_witness :
    (bracketOf (1/2)
        [⟨0, "#ef4444"⟩, ⟨1/2, "#475569"⟩, ⟨1/2, "#10b981"⟩, ⟨1, "#facc15"⟩]).1.pos <
      (bracketOf (1/2)
        [⟨0, "#ef4444"⟩, ⟨1/2, "#475569"⟩, ⟨1/2, "#10b981"⟩, ⟨1, "#facc15"⟩]).2.pos ∧
    ∃ r g b : ℤ,
      getGradientColor (1/2)
        [⟨0, "#ef4444"⟩, ⟨1/2, "#475569"⟩, ⟨1/2, "#10b981"⟩, ⟨1, "#facc15"⟩] = .rgba r g b :=
  C2_coincident_stops_no_zero_division ⟨0, "#ef4444"⟩
    [⟨1/2, "#475569"⟩, ⟨1/2, "#10b981"⟩, ⟨1, "#facc15"⟩]
    (by norm_num [List.sorted_cons, stopLE])
    ⟨[⟨0, "#ef4444"⟩], ⟨1/2, "#475569"⟩, ⟨1/2, "#10b981"⟩, [⟨1, "#facc15"⟩], rfl, rfl⟩
    (1/2) (by norm_num) (by norm_num)

lemma sorted_stopLT_of_le_nodup {l : List ColorStop}
    (hle : l.Sorted stopLE) (hnd : (l.map ColorStop.pos).Nodup) : l.Sorted stopLT := by
  have hne : l.Pairwise (fun u v : ColorStop => u.pos ≠ v.pos) := List.pairwise_map.mp hnd
  exact (hle.and hne).imp (fun h => lt_of_le_of_ne h.1 h.2)

/-- C10 (amended): `getGradientColor` works on a sorted fresh copy of its
stops, so its result always equals its result on the sorted list; and when
the stop positions are pairwise distinct, the result is invariant under any
permutation of the input stops.  (With duplicated positions the stable sort
preserves the input order of the ties, so permutation invariance fails — see
the counterexample.) -/
theorem C10_sorted_copy_and_permutation_invariance
    (value : ℚ) (stops stops' : List ColorStop) (h2 : 2 ≤ stops.length)
    (hperm : stops.Perm stops') (hnd : (stops.map ColorStop.pos).Nodup) :
    getGradientColor value stops = getGradientColor value (jsSortStops stops) ∧
    getGradientColor value stops = getGradientColor value stops' := by
  constructor
  · rw [getGradientColor, getGradientColor,
      jsSortStops_of_sorted (jsSortStops_sorted stops)]
  · have hp : (jsSortStops stops).Perm (jsSortStops stops') :=
      (jsSortStops_perm stops).trans (hperm.trans (jsSortStops_perm stops').symm)
    have hnd1 : ((jsSortStops stops).map ColorStop.pos).Nodup :=
      (((jsSortStops_perm stops).map ColorStop.pos).nodup_iff).mpr hnd
    have hnd2 : ((jsSortStops stops').map ColorStop.pos).Nodup :=
      (((jsSortStops_perm stops').map ColorStop.pos).nodup_iff).mpr
        ((hperm.map ColorStop.pos).nodup_iff.mp hnd)
    have hkey : jsSortStops stops = jsSortStops stops' :=
      List.eq_of_perm_of_sorted hp
        (sorted_stopLT_of_le_nodup (jsSortStops_sorted stops) hnd1)
        (sorted_stopLT_of_le_nodup (jsSortStops_sorted stops') hnd2)
    rw [getGradientColor, getGradientColor, hkey]

/-- C10 (counterexample to the claim as stated): with two stops sharing a
position, swapping them changes the result — the stable sort preserves the
input order of ties, and the `value <= sortedStops[0].pos` branch then
returns whichever tied stop came first.  So the result is *not* invariant
under arbitrary permutation of the stops. -/
theorem C10_counterexample :
    ([⟨0, "#00ff00"⟩, ⟨0, "#ff0000"⟩, ⟨1, "#000000"⟩] : List ColorStop).Perm
      [⟨0, "#ff0000"⟩, ⟨0, "#00ff00"⟩, ⟨1, "#000000"⟩] ∧
    getGradientColor (-1) [⟨0, "#ff0000"⟩, ⟨0, "#00ff00"⟩, ⟨1, "#000000"⟩] = .raw "#ff0000" ∧
    getGradientColor (-1) [⟨0, "#00ff00"⟩, ⟨0, "#ff0000"⟩, ⟨1, "#000000"⟩] = .raw "#00ff00" ∧
    getGradientColor (-1) [⟨0, "#ff0000"⟩, ⟨0, "#00ff00"⟩, ⟨1, "#000000"⟩] ≠
      getGradientColor (-1) [⟨0, "#00ff00"⟩, ⟨0, "#ff0000"⟩, ⟨1, "#000000"⟩] := by
  refine ⟨List.Perm.swap _ _ _, ?_, ?_, ?_⟩
  · norm_num [getGradientColor, jsSortStops, List.insertionSort, List.orderedInsert,
      stopLE, gradientAtSorted]
  · norm_num [getGradientColor, jsSortStops, List.insertionSort, List.orderedInsert,
      stopLE, gradientAtSorted]
  · intro h
    rw [show getGradientColor (-1) [⟨0, "#ff0000"⟩, ⟨0, "#00ff00"⟩, ⟨1, "#000000"⟩]
        = .raw "#ff0000" by
      norm_num [getGradientColor, jsSortStops, List.insertionSort, List.orderedInsert,
        stopLE, gradientAtSorted]] at h
    rw [show getGradientColor (-1) [⟨0, "#00ff00"⟩, ⟨0, "#ff0000"⟩, ⟨1, "#000000"⟩]
        = .raw "#00ff00" by
      norm_num [getGradientColor, jsSortStops, List.insertionSort, List.orderedInsert,
        stopLE, gradientAtSorted]] at h
    exact absurd (GColor.raw.injEq _ _ ▸ h) (by decide)

/-- C10 (amended, witness): a concrete rotation of the population stops
with pairwise-distinct positions. -/
theorem C10_witness :
    getGradientColor (1/2) popStops = getGradientColor (1/2) (jsSortStops popStops) ∧
    getGradientColor (1/2) popStops =
      getGradientColor (1/2)
        [⟨1, "#facc15"⟩, ⟨0, "#312e81"⟩, ⟨3/10, "#7c3aed"⟩, ⟨6/10, "#db2777"⟩] :=
  C10_sorted_copy_and_permutation_invariance (1/2) popStops _
    (by norm_num [popStops])
    (by
      show ([⟨0, "#312e81"⟩, ⟨3/10, "#7c3aed"⟩, ⟨6/10, "#db2777"⟩] ++
          [⟨1, "#facc15"⟩] : List ColorStop).Perm _
      exact List.perm_append_singleton _ _)
    (by norm_num [popStops, List.nodup_cons])

lemma hexToRgb_022c22 : hexToRgb "#022c22" = ⟨2, 44, 34⟩ := by decide

/-- C3 (code-bug evidence): `getVal` maps a feature with no stats record
to the number `0`, and `getColor`'s no-data guard `!val && val !== 0`
excludes `0`, so a missing entity is painted with the mode's gradient at
value 0 (e.g. the raw `'#312e81'` in `POPULATION` mode) and the fixed
neutral no-data fill (`'rgba(30, 41, 59, 0.8)'`, commented
`// Slate 800 for no data`) is never produced for it; the no-data branch
fires only on `NaN`, which `getVal` never returns. -/
theorem C3_missing_stats_not_painted_no_data :
    (∀ mode, getVal mode none = .num 0) ∧
    (∀ mode, getColor mode .nan = noDataColor) ∧
    getColor .POPULATION (getVal .POPULATION none) = .raw "#312e81" ∧
    getColor .GDP_PER_CAPITA (getVal .GDP_PER_CAPITA none) = .raw "#022c22" ∧
    getColor .POP_GROWTH (getVal .POP_GROWTH none) = .rgba 134 79 91 ∧
    getColor .GDP_GROWTH (getVal .GDP_GROWTH none) = .rgba 134 79 91 ∧
    (∀ mode, getColor mode (getVal mode none) ≠ noDataColor) := by
  have hpop : getColor .POPULATION (getVal .POPULATION none) = .raw "#312e81" := by
    norm_num [getColor, getVal, getGradientColor, jsSortStops, List.insertionSort,
      List.orderedInsert, stopLE, gradientAtSorted, popStops]
  have hgdp : getColor .GDP_PER_CAPITA (getVal .GDP_PER_CAPITA none) = .raw "#022c22" := by
    norm_num [getColor, getVal, getGradientColor, jsSortStops, List.insertionSort,
      List.orderedInsert, stopLE, gradientAtSorted, gdpStops]
  have hgrow : ∀ m, getColor m (.num 0) = getGradientColor (1/4) growthStops →
      getColor m (getVal m none) = .rgba 134 79 91 := by
    intro m hm
    have : getGradientColor (1/4) growthStops = .rgba 134 79 91 := by
      norm_num [getGradientColor, jsSortStops, List.insertionSort, List.orderedInsert,
        stopLE, gradientAtSorted, bracketOf, findPair, interpolateAt, interpChannel,
        jsRound, growthStops, hexToRgb_ef4444, hexToRgb_475569]
    have hv : getVal m none = .num 0 := by cases m <;> rfl
    rw [hv, hm, this]
  have hg1 : getColor .POP_GROWTH (.num 0) = getGradientColor (1/4) growthStops := by
    norm_num [getColor]
  have hg2 : getColor .GDP_GROWTH (.num 0) = getGradientColor (1/4) growthStops := by
    norm_num [getColor]
  refine ⟨fun mode => by cases mode <;> rfl, fun mode => rfl, hpop, hgdp,
    hgrow _ hg1, hgrow _ hg2, fun mode => ?_⟩
  cases mode
  · rw [hpop]; simp [noDataColor]
  · rw [hgdp]; simp [noDataColor]
  · rw [hgrow _ hg1]; simp [noDataColor]
  · rw [hgrow _ hg2]; simp [noDataColor]

/-- C4: in `POPULATION` mode a population of 50,000,000 normalizes to
`min(50000000/100000000, 1) = 0.5`, which falls between the `0.3` and `0.6`
stops at `relativeValue = (0.5-0.3)/(0.6-0.3) = 2/3`, and the fill is the
per-channel rounded interpolation of `#7c3aed` (violet) toward `#db2777`
(pink) at 2/3 — concretely `rgba(187,45,158,0.95)`. -/
theorem C4_population_50M_interpolated_at_two_thirds :
    min ((50000000 : ℚ) / 100000000) 1 = 1/2 ∧
    ((1 : ℚ)/2 - 3/10) / (6/10 - 3/10) = 2/3 ∧
    getColor .POPULATION (.num 50000000) =
      .rgba (interpChannel (hexToRgb "#7c3aed").r (hexToRgb "#db2777").r (2/3))
        (interpChannel (hexToRgb "#7c3aed").g (hexToRgb "#db2777").g (2/3))
        (interpChannel (hexToRgb "#7c3aed").b (hexToRgb "#db2777").b (2/3)) ∧
    getColor .POPULATION (.num 50000000) = .rgba 187 45 158 := by
  have heval : getColor .POPULATION (.num 50000000) = .rgba 187 45 158 := by
    norm_num [getColor, getGradientColor, jsSortStops, List.insertionSort,
      List.orderedInsert, stopLE, gradientAtSorted, bracketOf, findPair, interpolateAt,
      interpChannel, jsRound, popStops, hexToRgb_7c3aed, hexToRgb_db2777]
  refine ⟨by norm_num, by norm_num, ?_, heval⟩
  rw [heval, hexToRgb_7c3aed, hexToRgb_db2777]
  norm_num [interpChannel, jsRound]

/-- A point of a generated history series (`HistoricalPoint` in `types.ts`). -/
structure HistoricalPoint where
  year : ℤ
  value : ℚ
deriving DecidableEq, Repr

/-- The back-projection loop of `generateHistory` (src/unnamed/part_002,
lines 10–22): iteration `i` prepends `{year: currentYear - i, value: val}`
and then divides `val` by `1 + growthRate/100 + fluctuation`, where
`fluctuation = (Math.random() - 0.5) * 0.02`; `Math.random()` is modelled as
an explicit stream `rng` of draws indexed by the iteration. -/
def genLoop (currentYear : ℤ) (growthRate : ℚ) (rng : ℕ → ℚ) :
    ℕ → ℕ → ℚ → List HistoricalPoint → List HistoricalPoint
  | 0, _, _, acc => acc
  | k + 1, i, val, acc =>
    genLoop currentYear growthRate rng k (i + 1)
      (val / (1 + growthRate / 100 + (rng i - 1/2) * (2/100)))
      (⟨currentYear - (i : ℤ), val⟩ :: acc)

/-- Function `generateHistory` from src/unnamed/part_002 (lines 10–22). -/
def generateHistory (currentValue growthRate : ℚ) (years : ℕ) (currentYear : ℤ)
    (rng : ℕ → ℚ) : List HistoricalPoint :=
  genLoop currentYear growthRate rng years 0 currentValue []

lemma genLoop_append (cy : ℤ) (g : ℚ) (rng : ℕ → ℚ) :
    ∀ (k i : ℕ) (val : ℚ) (acc : List HistoricalPoint),
      genLoop cy g rng k i val acc = genLoop cy g rng k i val [] ++ acc := by
  intro k
  induction k with
  | zero => intro i val acc; rfl
  | succ k ih =>
    intro i val acc
    show genLoop cy g rng k (i + 1) _ (_ :: acc) = genLoop cy g rng (k + 1) i val [] ++ acc
    rw [ih (i + 1) _ (⟨cy - (i : ℤ), val⟩ :: acc)]
    have h2 : genLoop cy g rng (k + 1) i val [] =
        genLoop cy g rng k (i + 1) (val / (1 + g / 100 + (rng i - 1/2) * (2/100)))
          [⟨cy - (i : ℤ), val⟩] := rfl
    rw [h2, ih (i + 1) _ [⟨cy - (i : ℤ), val⟩], List.append_assoc]
    rfl

lemma genLoop_length (cy : ℤ) (g : ℚ) (rng : ℕ → ℚ) :
    ∀ (k i : ℕ) (val : ℚ), (genLoop cy g rng k i val []).length = k := by
  intro k
  induction k with
  | zero => intro i val; rfl
  | succ k ih =>
    intro i val
    show (genLoop cy g rng k (i + 1) _ [⟨cy - (i : ℤ), val⟩]).length = k + 1
    rw [genLoop_append, List.length_append, ih]
    rfl

lemma genLoop_years (cy : ℤ) (g : ℚ) (rng : ℕ → ℚ) :
    ∀ (k i : ℕ) (val : ℚ),
      (genLoop cy g rng k i val []).map HistoricalPoint.year =
        (List.range k).map (fun (j : ℕ) => cy - (i : ℤ) - (k : ℤ) + 1 + (j : ℤ)) := by
  intro k
  induction k with
  | zero => intro i val; rfl
  | succ k ih =>
    intro i val
    show (genLoop cy g rng k (i + 1) _ [⟨cy - (i : ℤ), val⟩]).map HistoricalPoint.year = _
    rw [genLoop_append, List.map_append, ih]
    rw [List.range_succ, List.map_append]
    congr 1
    · apply List.map_congr_left
      intro j _
      push_cast
      ring
    · show [cy - (i : ℤ)] = [cy - (i : ℤ) - ((k : ℤ) + 1) + 1 + (k : ℤ)]
      congr 1
      ring

lemma genLoop_last (cy : ℤ) (g : ℚ) (rng : ℕ → ℚ) (k i : ℕ) (val : ℚ) :
    (genLoop cy g rng (k + 1) i val []).getLast? = some ⟨cy - (i : ℤ), val⟩ := by
  show (genLoop cy g rng k (i + 1) _ [⟨cy - (i : ℤ), val⟩]).getLast? = _
  rw [genLoop_append, List.getLast?_concat]

/-- C7: for every current value, growth rate, and year count `n ≥ 1`, the
generated history has length exactly `n`, its years are the consecutive
integers `currentYear - n + 1, …, currentYear` in strictly ascending order,
and its last element is `{year: currentYear, value: currentValue}` — the
current value passed in. -/
theorem C7_history_length_years_and_boundary
    (currentValue growthRate : ℚ) (years : ℕ) (hy : 1 ≤ years)
    (currentYear : ℤ) (rng : ℕ → ℚ) :
    (generateHistory currentValue growthRate years currentYear rng).length = years ∧
    (generateHistory currentValue growthRate years currentYear rng).map
        HistoricalPoint.year =
      (List.range years).map (fun (j : ℕ) => currentYear - (years : ℤ) + 1 + (j : ℤ)) ∧
    (generateHistory currentValue growthRate years currentYear rng).getLast? =
      some ⟨currentYear, currentValue⟩ := by
  refine ⟨genLoop_length _ _ _ years 0 _, ?_, ?_⟩
  · rw [generateHistory, genLoop_years]
    apply List.map_congr_left
    intro j _
    push_cast
    ring
  · obtain ⟨k, rfl⟩ : ∃ k, years = k + 1 := ⟨years - 1, by omega⟩
    rw [generateHistory, genLoop_last]
    norm_num

/-- C7 (witness): a three-year history at growth 5% with the random stream
fixed at 1/2 (zero fluctuation). -/
theorem C7_witness :
    (generateHistory 100 5 3 2026 (fun _ => 1/2)).length = 3 ∧
    (generateHistory 100 5 3 2026 (fun _ => 1/2)).map HistoricalPoint.year =
      (List.range 3).map (fun (j : ℕ) => 2026 - (3 : ℤ) + 1 + (j : ℤ)) ∧
    (generateHistory 100 5 3 2026 (fun _ => 1/2)).getLast? = some ⟨2026, 100⟩ :=
  C7_history_length_years_and_boundary 100 5 3 (by norm_num) 2026 (fun _ => 1/2)

/-- The full per-entity record built by `initData` (stats plus the two
generated history series), per `EconomicStats` in `types.ts`. -/
structure EconEntry where
  population : ℚ
  gdpPerCapita : ℚ
  popGrowth : ℚ
  gdpGrowth : ℚ
  historyPopulation : List HistoricalPoint
  historyGdp : List HistoricalPoint
deriving DecidableEq, Repr

/-- The seed of the synthetic generator: the sum of the character codes of
the entity name (`name.split('').reduce((acc, char) => acc + char.charCodeAt(0), 0)`). -/
def nameSeed (name : String) : ℕ := (name.data.map Char.toNat).sum

/-- Fractional part, `x - Math.floor(x)`. -/
def fracPart (x : ℚ) : ℚ := x - ⌊x⌋

/-- The seeded pseudo-random draw of `initData`:
`rand(n) = frac(Math.sin(seed + n) * 10000)`.  `Math.sin` is modelled as an
arbitrary fixed function `sinQ` — the runtime's sine, identical on every
call within one session. -/
def seededRand (sinQ : ℚ → ℚ) (seed : ℕ) (n : ℕ) : ℚ :=
  fracPart (sinQ ((seed : ℚ) + (n : ℚ)) * 10000)

/-- Rounding to two decimals: `Number(x.toFixed(2))`. -/
def round2 (q : ℚ) : ℚ := (jsRound (q * 100) : ℚ) / 100

/-- The synthetic entry built for a name absent from the authoritative data
set (`initData`, src/unnamed/part_002 lines 81–101).  The base stats are
computed only from the name's seed through `sinQ`; `Math.random()` — used
only inside the two `generateHistory` calls — is modelled as the explicit
streams `rngPop` and `rngGdp`. -/
def synthEntry (sinQ : ℚ → ℚ) (currentYear : ℤ) (name : String)
    (rngPop rngGdp : ℕ → ℚ) : EconEntry :=
  let seed := nameSeed name
  let pop := (⌊(1000000 : ℚ) + seededRand sinQ seed 1 * 80000000⌋ : ℤ)
  let gdp := (⌊(1000 : ℚ) + seededRand sinQ seed 2 * 30000⌋ : ℤ)
  let popG := round2 (seededRand sinQ seed 3 * 3 - 1/2)
  let gdpG := round2 (seededRand sinQ seed 4 * 8 - 2)
  { population := (pop : ℚ)
    gdpPerCapita := (gdp : ℚ)
    popGrowth := popG
    gdpGrowth := gdpG
    historyPopulation := generateHistory (pop : ℚ) popG 10 currentYear rngPop
    historyGdp := generateHistory (gdp : ℚ) gdpG 10 currentYear rngGdp }

/-- C5: for an unseen name, the synthetic base stats are a deterministic
function of the name alone: two evaluations of `synthEntry` with the same
name (and the same runtime sine) produce identical `population`,
`gdpPerCapita`, `popGrowth` and `gdpGrowth`, whatever the `Math.random()`
streams do — the randomness only feeds the history series. -/
theorem C5_seeded_base_stats_deterministic (sinQ : ℚ → ℚ) (currentYear : ℤ)
    (name : String) (rngPop₁ rngGdp₁ rngPop₂ rngGdp₂ : ℕ → ℚ) :
    (synthEntry sinQ currentYear name rngPop₁ rngGdp₁).population =
      (synthEntry sinQ currentYear name rngPop₂ rngGdp₂).population ∧
    (synthEntry sinQ currentYear name rngPop₁ rngGdp₁).gdpPerCapita =
      (synthEntry sinQ currentYear name rngPop₂ rngGdp₂).gdpPerCapita ∧
    (synthEntry sinQ currentYear name rngPop₁ rngGdp₁).popGrowth =
      (synthEntry sinQ currentYear name rngPop₂ rngGdp₂).popGrowth ∧
    (synthEntry sinQ currentYear name rngPop₁ rngGdp₁).gdpGrowth =
      (synthEntry sinQ currentYear name rngPop₂ rngGdp₂).gdpGrowth :=
  ⟨rfl, rfl, rfl, rfl⟩

/-- The rank-assignment loop `countryNames.forEach((name, index) => { …Rank
= index + 1 })`: pair each element of a list with `start`, `start+1`, …. -/
def attachRanks {α : Type} : ℕ → List α → List (α × ℕ)
  | _, [] => []
  | start, x :: xs => (x, start) :: attachRanks (start + 1) xs

/-- The ranking of `initData` (src/unnamed/part_002, lines 105–118) for one
metric: stable-sort the entities descending by the key (the comparator
`(a, b) => data[b].key - data[a].key`) and assign `rank = index + 1`. -/
def rankBy {α : Type} (key : α → ℚ) (l : List α) : List (α × ℕ) :=
  attachRanks 1 (List.insertionSort (fun a b => key b ≤ key a) l)

lemma attachRanks_map_snd {α : Type} :
    ∀ (l : List α) (s : ℕ), (attachRanks s l).map Prod.snd =
      (List.range l.length).map (fun j => s + j) := by
  intro l
  induction l with
  | nil => intro s; rfl
  | cons x xs ih =>
    intro s
    show s :: (attachRanks (s + 1) xs).map Prod.snd = _
    rw [ih (s + 1), List.length_cons, List.range_succ_eq_map, List.map_cons,
      List.map_map]
    congr 1
    apply List.map_congr_left
    intro j _
    simp [Nat.succ_eq_add_one]
    omega

lemma attachRanks_map_fst {α : Type} :
    ∀ (l : List α) (s : ℕ), (attachRanks s l).map Prod.fst = l := by
  intro l
  induction l with
  | nil => intro s; rfl
  | cons x xs ih => intro s; show x :: (attachRanks (s + 1) xs).map Prod.fst = _; rw [ih]

lemma attachRanks_rank_ge {α : Type} :
    ∀ (l : List α) (s : ℕ) (x : α) (r : ℕ), (x, r) ∈ attachRanks s l → s ≤ r := by
  intro l
  induction l with
  | nil => intro s x r h; cases h
  | cons y ys ih =>
    intro s x r h
    rcases List.mem_cons.mp h with heq | hmem
    · cases heq; exact le_refl _
    · exact le_trans (Nat.le_succ s) (ih (s + 1) x r hmem)

lemma attachRanks_first {α : Type} (s : ℕ) (x : α) (xs : List α) (y : α)
    (hy : (y, s) ∈ attachRanks s (x :: xs)) : y = x := by
  rcases List.mem_cons.mp hy with heq | hmem
  · exact congrArg Prod.fst heq
  · exact absurd (attachRanks_rank_ge xs (s + 1) y s hmem) (by omega)

lemma rankBy_spec {α : Type} (key : α → ℚ) (l : List α) :
    ((rankBy key l).map Prod.snd = (List.range l.length).map (fun j => 1 + j)) ∧
    ((rankBy key l).map Prod.fst).Perm l ∧
    (∀ x r, (x, r) ∈ rankBy key l → r = 1 → ∀ y ∈ l, key y ≤ key x) := by
  haveI : IsTotal α (fun a b => key b ≤ key a) := ⟨fun a b => le_total (key b) (key a)⟩
  haveI : IsTrans α (fun a b => key b ≤ key a) :=
    ⟨fun _ _ _ h1 h2 => le_trans h2 h1⟩
  refine ⟨?_, ?_, ?_⟩
  · rw [rankBy, attachRanks_map_snd, List.length_insertionSort]
  · rw [rankBy, attachRanks_map_fst]
    exact List.perm_insertionSort _ l
  · intro x r hx hr
    subst hr
    have hsorted : (List.insertionSort (fun a b => key b ≤ key a) l).Sorted
        (fun a b => key b ≤ key a) := List.sorted_insertionSort _ l
    intro y hy
    have hy' : y ∈ List.insertionSort (fun a b => key b ≤ key a) l :=
      (List.mem_insertionSort _).mpr hy
    rcases hsl : List.insertionSort (fun a b => key b ≤ key a) l with _ | ⟨hd, tl⟩
    · rw [hsl] at hy'; cases hy'
    · rw [rankBy, hsl] at hx
      have hx_hd : x = hd := attachRanks_first 1 hd tl x hx
      rw [hsl] at hy' hsorted
      subst hx_hd
      rcases List.mem_cons.mp hy' with rfl | hytl
      · exact le_refl _
      · exact List.rel_of_sorted_cons hsorted y hytl

/-- Catalog population ranking: `countryNames.sort((a, b) => fullData[b].population
- fullData[a].population)` followed by `populationRank = index + 1`. -/
def populationRanks (catalog : List (String × EconEntry)) :
    List ((String × EconEntry) × ℕ) :=
  rankBy (fun e => e.2.population) catalog

/-- Catalog GDP-per-capita ranking, the second pass of `initData`. -/
def gdpRanks (catalog : List (String × EconEntry)) :
    List ((String × EconEntry) × ℕ) :=
  rankBy (fun e => e.2.gdpPerCapita) catalog

/-- C6: for every catalog, the rank pass assigns each entity exactly one
rank, the multiset of ranked entities is the whole catalog, the assigned
ranks are exactly `1, 2, …, N` in order (hence unique and total), and an
entity with rank 1 has the maximum value of the ranked metric; this holds
for `populationRank` over `population` and for `gdpRank` over
`gdpPerCapita`.  (Every entity of the built catalog carries both fields, so
no entity is excluded.) -/
theorem C6_rank_assignment_unique_total_and_max (catalog : List (String × EconEntry)) :
    ((populationRanks catalog).map Prod.snd =
      (List.range catalog.length).map (fun j => 1 + j)) ∧
    ((populationRanks catalog).map Prod.fst).Perm catalog ∧
    (∀ e r, (e, r) ∈ populationRanks catalog → r = 1 →
      ∀ e2 ∈ catalog, e2.2.population ≤ e.2.population) ∧
    ((gdpRanks catalog).map Prod.snd =
      (List.range catalog.length).map (fun j => 1 + j)) ∧
    ((gdpRanks catalog).map Prod.fst).Perm catalog ∧
    (∀ e r, (e, r) ∈ gdpRanks catalog → r = 1 →
      ∀ e2 ∈ catalog, e2.2.gdpPerCapita ≤ e.2.gdpPerCapita) := by
  obtain ⟨p1, p2, p3⟩ := rankBy_spec (fun e : String × EconEntry => e.2.population) catalog
  obtain ⟨g1, g2, g3⟩ := rankBy_spec (fun e : String × EconEntry => e.2.gdpPerCapita) catalog
  exact ⟨p1, p2, p3, g1, g2, g3⟩

/-- A polygon feature as the globe callbacks see it: `id` models JavaScript
object identity (the hover check `d === hoverD` is reference equality) and
`name` is `d.properties.ADMIN`. -/
structure Feature where
  id : ℕ
  name : String
deriving DecidableEq, Repr

/-- The fixed bright highlight cap fill of a selected polygon
(`'#a5f3fc'`, Cyan 200). -/
def capSelectedColor : GColor := .raw "#a5f3fc"

/-- The hover override cap fill (`'#7dd3fc'`, Sky 300). -/
def capHoverColor : GColor := .raw "#7dd3fc"

/-- The glow side color of a selected polygon (`'rgba(34, 211, 238, 0.8)'`). -/
def sideGlowColor : GColor := .raw "rgba(34, 211, 238, 0.8)"

/-- The default side color (`'rgba(0,0,0,0.6)'`). -/
def sideDefaultColor : GColor := .raw "rgba(0,0,0,0.6)"

/-- The `polygonAltitude` callback of `Globe3D` (line 458):
`d.properties.ADMIN === selectedCountryName ? 0.3 : (d === hoverD ? 0.12 : 0.01)`. -/
def polygonAltitude (selName : Option String) (hoverId : Option ℕ) (d : Feature) : ℚ :=
  if selName = some d.name then 3/10
  else if hoverId = some d.id then 12/100
  else 1/100

/-- The `polygonCapColor` callback of `Globe3D` (lines 459–463). -/
def polygonCapColor (data : String → Option EconomicStats) (mode : VisualizationMode)
    (selName : Option String) (hoverId : Option ℕ) (d : Feature) : GColor :=
  if selName = some d.name then capSelectedColor
  else if hoverId = some d.id then capHoverColor
  else getColor mode (getVal mode (data d.name))

/-- The `polygonSideColor` callback of `Globe3D` (lines 464–467). -/
def polygonSideColor (selName : Option String) (d : Feature) : GColor :=
  if selName = some d.name then sideGlowColor else sideDefaultColor

/-- C8: the derived visual state obeys selected > hovered > default. A
selected polygon gets the fixed bright highlight cap, the glow side color
and the maximal altitude 0.3 — regardless of hover state; a hovered
non-selected polygon gets the hover override cap and the medium altitude
0.12; every other polygon gets the mode's computed gradient fill
(`getColor ∘ getVal`) and the minimal altitude 0.01; and the three
altitudes are strictly ordered. -/
theorem C8_selected_hover_default_priority (data : String → Option EconomicStats)
    (mode : VisualizationMode) (selName : Option String) (hoverId : Option ℕ)
    (d : Feature) :
    (selName = some d.name →
      polygonCapColor data mode selName hoverId d = capSelectedColor ∧
      polygonSideColor selName d = sideGlowColor ∧
      polygonAltitude selName hoverId d = 3/10) ∧
    (selName ≠ some d.name → hoverId = some d.id →
      polygonCapColor data mode selName hoverId d = capHoverColor ∧
      polygonSideColor selName d = sideDefaultColor ∧
      polygonAltitude selName hoverId d = 12/100) ∧
    (selName ≠ some d.name → hoverId ≠ some d.id →
      polygonCapColor data mode selName hoverId d =
        getColor mode (getVal mode (data d.name)) ∧
      polygonSideColor selName d = sideDefaultColor ∧
      polygonAltitude selName hoverId d = 1/100) ∧
    ((1 : ℚ)/100 < 12/100 ∧ (12 : ℚ)/100 < 3/10) := by
  refine ⟨?_, ?_, ?_, by norm_num, by norm_num⟩
  · intro h
    exact ⟨by simp [polygonCapColor, h], by simp [polygonSideColor, h],
      by simp [polygonAltitude, h]⟩
  · intro h h2
    exact ⟨by simp [polygonCapColor, h, h2], by simp [polygonSideColor, h],
      by simp [polygonAltitude, h, h2]⟩
  · intro h h2
    exact ⟨by simp [polygonCapColor, h, h2], by simp [polygonSideColor, h],
      by simp [polygonAltitude, h, h2]⟩

/-- C8 (witness): a selected-and-hovered polygon keeps the selection
treatment; a hovered non-selected one gets the hover treatment; an
untouched one gets the gradient fill. -/
theorem C8_witness :
    polygonCapColor (fun _ => none) .POPULATION (some "France") (some 0) ⟨0, "France"⟩ =
      capSelectedColor ∧
    polygonSideColor (some "France") ⟨0, "France"⟩ = sideGlowColor ∧
    polygonAltitude (some "France") (some 0) ⟨0, "France"⟩ = 3/10 ∧
    polygonCapColor (fun _ => none) .POPULATION none (some 0) ⟨0, "France"⟩ =
      capHoverColor ∧
    polygonAltitude none (some 0) ⟨0, "France"⟩ = 12/100 ∧
    polygonCapColor (fun _ => none) .POPULATION none none ⟨0, "France"⟩ =
      getColor .POPULATION (getVal .POPULATION none) ∧
    polygonAltitude none none ⟨0, "France"⟩ = 1/100 := by
  obtain ⟨s1, s2, s3⟩ :=
    (C8_selected_hover_default_priority (fun _ => none) .POPULATION (some "France")
      (some 0) ⟨0, "France"⟩).1 rfl
  obtain ⟨h1, _, h3⟩ :=
    (C8_selected_hover_default_priority (fun _ => none) .POPULATION none
      (some 0) ⟨0, "France"⟩).2.1 (by simp) rfl
  obtain ⟨d1, _, d3⟩ :=
    (C8_selected_hover_default_priority (fun _ => none) .POPULATION none
      none ⟨0, "France"⟩).2.2.1 (by simp) (by simp)
  exact ⟨s1, s2, s3, h1, h3, d1, d3⟩

/-- The insight record returned by the narrative service (`AIInsight` in
`types.ts`). -/
structure AIInsight where
  summary : String
  keyFactors : List String
  outlook : String
deriving DecidableEq, Repr

/-- The fallback returned when no API key is configured
(`geminiService.ts`, lines 7–14). -/
def noKeyInsight : AIInsight :=
  { summary := "API Key missing. Unable to generate real-time AI insights."
    keyFactors := ["Data Unavailable"]
    outlook := "Neutral" }

/-- The fallback returned by the `catch` block on any request, empty-text or
parse failure (`geminiService.ts`, lines 53–60). -/
def errorInsight : AIInsight :=
  { summary := "Unable to retrieve AI insights at this moment."
    keyFactors := ["Network Error", "API Limit Reached"]
    outlook := "Neutral" }

/-- Outcome of the network request: the call throws, or resolves with
`response.text` (absent, or a string). -/
inductive ReqOutcome where
  | fail
  | ok (text : Option String)
deriving DecidableEq, Repr

/-- Function `generateCountryInsight` from `src/services/geminiService.ts`.
`JSON.parse` (an external builtin) is the parameter `parse`, `none`
modelling a parse throw; the Boolean records whether a network request was
issued.  `!text` is true for an absent response text and for the empty
string. -/
def generateCountryInsight (parse : String → Option AIInsight) (apiKey : String)
    (req : ReqOutcome) : AIInsight × Bool :=
  if apiKey = "" then (noKeyInsight, false)
  else
    match req with
    | .fail => (errorInsight, true)
    | .ok none => (errorInsight, true)
    | .ok (some t) =>
      if t = "" then (errorInsight, true)
      else
        match parse t with
        | some insight => (insight, true)
        | none => (errorInsight, true)

/-- C9 (counterexample to the claim as stated): on a request failure with a
credential configured, the fallback's `keyFactors` is
`["Network Error", "API Limit Reached"]` — a two-element sequence, not a
single-element one. -/
theorem C9_counterexample :
    (generateCountryInsight (fun _ => none) "key" .fail).1.keyFactors =
      ["Network Error", "API Limit Reached"] ∧
    (generateCountryInsight (fun _ => none) "key" .fail).1.keyFactors.length ≠ 1 := by
  constructor
  · rfl
  · decide

/-- C9 (amended): `generateCountryInsight` never throws: with no credential
it returns the fixed `noKeyInsight` (outlook "Neutral", non-empty summary,
the single-element `["Data Unavailable"]`) without any network call, and
with a credential every failure — request throw, missing or empty response
text, parse failure — resolves to the fixed `errorInsight` (outlook
"Neutral", non-empty summary, the two-element
`["Network Error", "API Limit Reached"]`) after a network call. -/
theorem C9_fallback_never_throws (parse : String → Option AIInsight)
    (apiKey : String) (req : ReqOutcome) :
    (apiKey = "" → generateCountryInsight parse apiKey req = (noKeyInsight, false)) ∧
    (apiKey ≠ "" → req = .fail →
      generateCountryInsight parse apiKey req = (errorInsight, true)) ∧
    (apiKey ≠ "" → req = .ok none →
      generateCountryInsight parse apiKey req = (errorInsight, true)) ∧
    (apiKey ≠ "" → ∀ t, req = .ok (some t) → (t = "" ∨ parse t = none) →
      generateCountryInsight parse apiKey req = (errorInsight, true)) ∧
    noKeyInsight.outlook = "Neutral" ∧ noKeyInsight.summary ≠ "" ∧
    noKeyInsight.keyFactors.length = 1 ∧
    errorInsight.outlook = "Neutral" ∧ errorInsight.summary ≠ "" ∧
    errorInsight.keyFactors.length = 2 := by
  refine ⟨?_, ?_, ?_, ?_, rfl, by decide, rfl, rfl, by decide, rfl⟩
  · intro h
    simp [generateCountryInsight, h]
  · intro h hreq
    subst hreq
    simp [generateCountryInsight, h]
  · intro h hreq
    subst hreq
    simp [generateCountryInsight, h]
  · intro h t hreq hfail
    subst hreq
    rcases hfail with rfl | hparse
    · simp [generateCountryInsight, h]
    · by_cases ht : t = ""
      · simp [generateCountryInsight, h, ht]
      · simp [generateCountryInsight, h, ht, hparse]

/-- C9 (witness): the no-credential case performs no network call and
returns the single-factor fallback; a request failure with a credential
returns the error fallback after a network call. -/
theorem C9_witness :
    generateCountryInsight (fun _ => none) "" .fail = (noKeyInsight, false) ∧
    generateCountryInsight (fun _ => none) "key" .fail = (errorInsight, true) :=
  ⟨(C9_fallback_never_throws (fun _ => none) "" .fail).1 rfl,
    (C9_fallback_never_throws (fun _ => none) "key" .fail).2.1 (by decide) rfl⟩
